import Mathlib

/-
Formal model of the `init` / `ip-init` crates: fallible in-place
initialization of values behind raw pointers.

The embedding is address-level: a raw pointer is a natural number (element
units for slice elements), an initializer is a function from the address it
is handed (the `Uninit` handle) to either an error or the address of the
`Init` handle it returns, and the observable side effects of the library
(allocator calls, deallocations, initializer invocations, destructor calls
via `drop_in_place`) are recorded as an event trace.  Panics (`assert!`,
`debug_assert_eq!`, `todo!`) are modelled as a distinguished `panicked`
outcome, separate from recoverable `Result` errors.
-/

set_option maxHeartbeats 1000000

/-- The number of values of `usize` on a 64-bit target. -/
def USIZE : Nat := 2 ^ 64

/-- `usize::wrapping_sub` on a 64-bit target (the first operand is assumed
to be a valid `usize`, i.e. `< USIZE`). -/
def wrapping_sub (a b : Nat) : Nat := (a + USIZE - b % USIZE) % USIZE

theorem wrapping_sub_eq_sub {a b : Nat} (hb : b ≤ a) (ha : a < USIZE) :
    wrapping_sub a b = a - b := by
  have hbu : b % USIZE = b := Nat.mod_eq_of_lt (lt_of_le_of_lt hb ha)
  have h1 : a + USIZE - b % USIZE = (a - b) + USIZE := by
    rw [hbu]; omega
  rw [wrapping_sub, h1, Nat.add_mod_right, Nat.mod_eq_of_lt (by omega)]

/-- `core::alloc::Layout`: a size / alignment pair. -/
structure Layout where
  size : Nat
  align : Nat
  deriving DecidableEq, Repr

/-- Observable side effects of the library: global-allocator calls and
destructor (`drop_in_place`) calls. -/
inductive Event
  | alloc (layout : Layout)
  | dealloc (addr : Nat) (layout : Layout)
  | initCall (addr : Nat)
  | dropCall (addr : Nat)
  deriving DecidableEq, Repr

/-- Address-level model of a `TryInitialize<T>` implementation: given the
address of the `Uninit<T>` handle it consumes, it either fails with an
error or succeeds and returns the address of the `Init<T>` handle it
produced.  (The framework itself only ever observes the returned address,
so this is the full observable behavior of an arbitrary trait impl.) -/
def TryInit (ε : Type) : Type := Nat → Except ε Nat

/-- Outcome of running code that may panic (fatal assertion / `todo!`). -/
inductive POut (α : Type)
  | val (a : α)
  | panicked
  deriving DecidableEq, Repr

/-- `init::raw::try_init_in_place` (src/init/src/raw.rs and the identical
copy in src/init/src/lib.rs): run `init.try_init(Uninit::from_raw(ptr))`;
on `Ok(init)` take `init.into_raw()` and `debug_assert_eq!(ptr, old)` (a
fatal panic on mismatch, modelled with debug assertions active). -/
def try_init_in_place {ε : Type} (init : TryInit ε) (ptr : Nat) :
    POut (Except ε Unit) :=
  match init ptr with
  | .error err => .val (.error err)
  | .ok old => if ptr = old then .val (.ok ()) else .panicked

/-- `init::raw::try_pin_init_in_place` (src/init/src/raw.rs): identical to
`try_init_in_place` except that the handle is wrapped into a
`PinnedUninit` before and unwrapped from the `Pin` after, both of which
are address-preserving, so at address level the body coincides. -/
def try_pin_init_in_place {ε : Type} (init : TryInit ε) (ptr : Nat) :
    POut (Except ε Unit) :=
  match init ptr with
  | .error err => .val (.error err)
  | .ok old => if ptr = old then .val (.ok ()) else .panicked

/-- `Uninit<'a, T>` (src/init/src/ptr/raw.rs): a non-null address, no
validity assumption on the pointee. -/
structure Uninit where
  addr : Nat
  deriving DecidableEq, Repr

/-- `Init<'a, T>` (src/init/src/ptr/raw.rs): a non-null address whose
pointee is a valid value. -/
structure Init where
  addr : Nat
  deriving DecidableEq, Repr

/-- `Uninit::write` (src/init/src/ptr.rs): `self.as_mut_ptr().write(value)`
followed by `self.assume_init()` — the returned `Init` is built from the
same address the `Uninit` held. -/
def Uninit.write {α : Type} (u : Uninit) (_value : α) : Init :=
  ⟨u.addr⟩

/-- `Init::into_raw` (src/init/src/ptr/raw.rs): returns the underlying
pointer and `mem::forget`s self, so no destructor event is emitted. -/
def Init.into_raw (i : Init) : Nat × List Event :=
  (i.addr, [])

/-- `Drop for Init` (src/init/src/ptr/raw.rs): `drop_in_place` on the
pointee, i.e. exactly one destructor call at the stored address. -/
def Init.drop (i : Init) : List Event :=
  [Event.dropCall i.addr]

/-- `Uninit` has no `Drop` impl: dropping it runs no destructor. -/
def Uninit.drop (_u : Uninit) : List Event :=
  []

/-- `SliceWriter<'a, T>` (src/ip-init/src/slice/writer.rs); the `Writer`
of src/init/src/slice/writer.rs has the identical fields and method
bodies.  `base`/`len` are the pointer and length of the `uninit` slice
handle, `current` the address of the next slot, `remaining` the number of
slots not yet initialized. -/
structure SliceWriter where
  base : Nat
  len : Nat
  current : Nat
  remaining : Nat
  deriving DecidableEq, Repr

/-- `SliceWriter::new`: cursor at the start, everything remaining. -/
def SliceWriter.new (base len : Nat) : SliceWriter :=
  ⟨base, len, base, len⟩

/-- `SliceWriter::is_finished`: `self.remaining == 0`. -/
def SliceWriter.is_finished (w : SliceWriter) : Bool :=
  w.remaining == 0

/-- Result of `SliceWriter::try_write` / `Writer::try_init`: success with
the updated writer, a propagated error with the (unchanged) writer, or a
panic (the `assert!(!self.is_finished())` / debug identity assertion). -/
inductive WriteResult (ε : Type)
  | ok (w : SliceWriter)
  | err (e : ε) (w : SliceWriter)
  | panic

/-- `SliceWriter::try_write` (src/ip-init/src/slice/writer.rs; the body of
`Writer::try_init` in src/init/src/slice/writer.rs is identical):
`assert!(!self.is_finished())`, then `try_init_in_place(init, self.current)`
(one initializer invocation at `current`, recorded in the trace); on `Ok`
advance `current` by one element and decrement `remaining`; on `Err`
return the error with the state untouched. -/
def SliceWriter.try_write {ε : Type} (w : SliceWriter) (init : TryInit ε) :
    WriteResult ε × List Event :=
  if w.is_finished then (.panic, [])
  else
    match try_init_in_place init w.current with
    | .val (.ok ()) =>
        (.ok { w with current := w.current + 1, remaining := w.remaining - 1 },
         [Event.initCall w.current])
    | .val (.error e) => (.err e w, [Event.initCall w.current])
    | .panicked => (.panic, [Event.initCall w.current])

/-- `Drop for SliceWriter` (src/ip-init/src/slice/writer.rs, lines 17-26;
identical in src/init/src/slice/writer.rs): it computes
`len.wrapping_sub(self.remaining)` from the slice length and runs
`drop_in_place` over that prefix of the slice, i.e. one destructor call
per element of the initialized prefix. -/
def SliceWriter.drop (w : SliceWriter) : List Event :=
  (List.range (wrapping_sub w.len w.remaining)).map
    (fun i => Event.dropCall (w.base + i))

theorem try_write_of_error {ε : Type} {w : SliceWriter} {init : TryInit ε}
    {e : ε} (hfin : w.is_finished = false) (h : init w.current = .error e) :
    w.try_write init = (.err e w, [Event.initCall w.current]) := by
  simp [SliceWriter.try_write, hfin, try_init_in_place, h]

theorem try_write_of_ok_id {ε : Type} {w : SliceWriter} {init : TryInit ε}
    (hfin : w.is_finished = false) (h : init w.current = .ok w.current) :
    w.try_write init =
      (.ok { w with current := w.current + 1, remaining := w.remaining - 1 },
       [Event.initCall w.current]) := by
  simp [SliceWriter.try_write, hfin, try_init_in_place, h]

theorem try_write_of_ok_mismatch {ε : Type} {w : SliceWriter}
    {init : TryInit ε} {old : Nat} (hfin : w.is_finished = false)
    (h : init w.current = .ok old) (hne : old ≠ w.current) :
    w.try_write init = (.panic, [Event.initCall w.current]) := by
  simp [SliceWriter.try_write, hfin, try_init_in_place, h,
    if_neg (show ¬w.current = old from fun h' => hne h'.symm)]

theorem try_write_ok_inv {ε : Type} {w w' : SliceWriter} {init : TryInit ε}
    {tr : List Event} (h : w.try_write init = (.ok w', tr)) :
    w.is_finished = false ∧ init w.current = .ok w.current ∧
      w' = { w with current := w.current + 1, remaining := w.remaining - 1 } := by
  cases hfin : w.is_finished with
  | true =>
    rw [SliceWriter.try_write, if_pos (by simp [hfin])] at h
    exact absurd h (by simp)
  | false =>
    rcases hi : init w.current with e | old
    · rw [try_write_of_error hfin hi] at h
      exact absurd h (by simp)
    · by_cases hol : old = w.current
      · subst hol
        rw [try_write_of_ok_id hfin hi] at h
        obtain ⟨h1, -⟩ := Prod.mk.injEq .. ▸ h
        injection h1 with h1
        exact ⟨rfl, rfl, h1.symm⟩
      · rw [try_write_of_ok_mismatch hfin hi hol] at h
        exact absurd h (by simp)

theorem try_write_err_inv {ε : Type} {w w' : SliceWriter} {init : TryInit ε}
    {e : ε} {tr : List Event} (h : w.try_write init = (.err e w', tr)) :
    w.is_finished = false ∧ init w.current = .error e ∧ w' = w := by
  cases hfin : w.is_finished with
  | true =>
    rw [SliceWriter.try_write, if_pos (by simp [hfin])] at h
    exact absurd h (by simp)
  | false =>
    rcases hi : init w.current with e' | old
    · rw [try_write_of_error hfin hi] at h
      obtain ⟨h1, -⟩ := Prod.mk.injEq .. ▸ h
      injection h1 with h1 h2
      exact ⟨rfl, by rw [h1], h2.symm⟩
    · by_cases hol : old = w.current
      · subst hol
        rw [try_write_of_ok_id hfin hi] at h
        exact absurd h (by simp)
      · rw [try_write_of_ok_mismatch hfin hi hol] at h
        exact absurd h (by simp)

/-- `PinSliceWriter<'a, T>` (src/ip-init/src/slice/pin_writer.rs): same
fields as `SliceWriter`, over a `PinnedUninit<[T]>` slice handle. -/
structure PinSliceWriter where
  base : Nat
  len : Nat
  current : Nat
  remaining : Nat
  deriving DecidableEq, Repr

/-- `PinSliceWriter::new`. -/
def PinSliceWriter.new (base len : Nat) : PinSliceWriter :=
  ⟨base, len, base, len⟩

/-- `PinSliceWriter::is_finished`: `self.remaining == 0`. -/
def PinSliceWriter.is_finished (w : PinSliceWriter) : Bool :=
  w.remaining == 0

/-- Result of `PinSliceWriter::try_write`. -/
inductive PinWriteResult (ε : Type)
  | ok (w : PinSliceWriter)
  | err (e : ε) (w : PinSliceWriter)
  | panic

/-- `PinSliceWriter::try_write` (src/ip-init/src/slice/pin_writer.rs):
same as `SliceWriter::try_write`, but driving `try_pin_init_in_place`. -/
def PinSliceWriter.try_write {ε : Type} (w : PinSliceWriter)
    (init : TryInit ε) : PinWriteResult ε × List Event :=
  if w.is_finished then (.panic, [])
  else
    match try_pin_init_in_place init w.current with
    | .val (.ok ()) =>
        (.ok { w with current := w.current + 1, remaining := w.remaining - 1 },
         [Event.initCall w.current])
    | .val (.error e) => (.err e w, [Event.initCall w.current])
    | .panicked => (.panic, [Event.initCall w.current])

/-- `Drop for PinSliceWriter` (src/ip-init/src/slice/pin_writer.rs, lines
17-26): verbatim the same teardown as `Drop for SliceWriter`. -/
def PinSliceWriter.drop (w : PinSliceWriter) : List Event :=
  (List.range (wrapping_sub w.len w.remaining)).map
    (fun i => Event.dropCall (w.base + i))

theorem pin_try_write_of_error {ε : Type} {w : PinSliceWriter}
    {init : TryInit ε} {e : ε} (hfin : w.is_finished = false)
    (h : init w.current = .error e) :
    w.try_write init = (.err e w, [Event.initCall w.current]) := by
  simp [PinSliceWriter.try_write, hfin, try_pin_init_in_place, h]

theorem pin_try_write_of_ok_id {ε : Type} {w : PinSliceWriter}
    {init : TryInit ε} (hfin : w.is_finished = false)
    (h : init w.current = .ok w.current) :
    w.try_write init =
      (.ok { w with current := w.current + 1, remaining := w.remaining - 1 },
       [Event.initCall w.current]) := by
  simp [PinSliceWriter.try_write, hfin, try_pin_init_in_place, h]

theorem pin_try_write_of_ok_mismatch {ε : Type} {w : PinSliceWriter}
    {init : TryInit ε} {old : Nat} (hfin : w.is_finished = false)
    (h : init w.current = .ok old) (hne : old ≠ w.current) :
    w.try_write init = (.panic, [Event.initCall w.current]) := by
  simp [PinSliceWriter.try_write, hfin, try_pin_init_in_place, h,
    if_neg (show ¬w.current = old from fun h' => hne h'.symm)]

theorem pin_try_write_ok_inv {ε : Type} {w w' : PinSliceWriter}
    {init : TryInit ε} {tr : List Event}
    (h : w.try_write init = (.ok w', tr)) :
    w.is_finished = false ∧ init w.current = .ok w.current ∧
      w' = { w with current := w.current + 1, remaining := w.remaining - 1 } := by
  cases hfin : w.is_finished with
  | true =>
    rw [PinSliceWriter.try_write, if_pos (by simp [hfin])] at h
    exact absurd h (by simp)
  | false =>
    rcases hi : init w.current with e | old
    · rw [pin_try_write_of_error hfin hi] at h
      exact absurd h (by simp)
    · by_cases hol : old = w.current
      · subst hol
        rw [pin_try_write_of_ok_id hfin hi] at h
        obtain ⟨h1, -⟩ := Prod.mk.injEq .. ▸ h
        injection h1 with h1
        exact ⟨rfl, rfl, h1.symm⟩
      · rw [pin_try_write_of_ok_mismatch hfin hi hol] at h
        exact absurd h (by simp)

theorem pin_try_write_err_inv {ε : Type} {w w' : PinSliceWriter}
    {init : TryInit ε} {e : ε} {tr : List Event}
    (h : w.try_write init = (.err e w', tr)) :
    w.is_finished = false ∧ init w.current = .error e ∧ w' = w := by
  cases hfin : w.is_finished with
  | true =>
    rw [PinSliceWriter.try_write, if_pos (by simp [hfin])] at h
    exact absurd h (by simp)
  | false =>
    rcases hi : init w.current with e' | old
    · rw [pin_try_write_of_error hfin hi] at h
      obtain ⟨h1, -⟩ := Prod.mk.injEq .. ▸ h
      injection h1 with h1 h2
      exact ⟨rfl, by rw [h1], h2.symm⟩
    · by_cases hol : old = w.current
      · subst hol
        rw [pin_try_write_of_ok_id hfin hi] at h
        exact absurd h (by simp)
      · rw [pin_try_write_of_ok_mismatch hfin hi hol] at h
        exact absurd h (by simp)

/-- The writer states reachable from `SliceWriter::new(uninit)` over a
slice of length `n` at base address `base`, by any sequence of `try_write`
calls, together with the number `k` of calls that succeeded (failed calls
leave the writer untouched and are allowed in the sequence). -/
inductive SliceWriter.Reached (ε : Type) (base n : Nat) :
    SliceWriter → Nat → Prop
  | new : SliceWriter.Reached ε base n (SliceWriter.new base n) 0
  | write_ok {w w' : SliceWriter} {k : Nat} {init : TryInit ε}
      {tr : List Event} : SliceWriter.Reached ε base n w k →
      w.try_write init = (.ok w', tr) →
      SliceWriter.Reached ε base n w' (k + 1)
  | write_err {w w' : SliceWriter} {k : Nat} {init : TryInit ε} {e : ε}
      {tr : List Event} : SliceWriter.Reached ε base n w k →
      w.try_write init = (.err e w', tr) →
      SliceWriter.Reached ε base n w' k

/-- Reachable writer states are exactly determined by the number of
successful writes: the cursor sits `k` elements past the base and `n - k`
slots remain. -/
theorem SliceWriter.writer_reached_state {ε : Type} {base n k : Nat}
    {w : SliceWriter} (h : SliceWriter.Reached ε base n w k) :
    k ≤ n ∧ w = ⟨base, n, base + k, n - k⟩ := by
  induction h with
  | new => exact ⟨Nat.zero_le n, rfl⟩
  | write_ok _ hw ih =>
    obtain ⟨hk, rfl⟩ := ih
    obtain ⟨hfin, -, rfl⟩ := try_write_ok_inv hw
    simp only [SliceWriter.is_finished, beq_eq_false_iff_ne, ne_eq] at hfin
    refine ⟨by omega, ?_⟩
    simp only [SliceWriter.mk.injEq]
    exact ⟨trivial, trivial, by omega, by omega⟩
  | write_err _ hw ih =>
    obtain ⟨hk, rfl⟩ := ih
    obtain ⟨-, -, rfl⟩ := try_write_err_inv hw
    exact ⟨hk, rfl⟩

/-- Same reachability relation for `PinSliceWriter`. -/
inductive PinSliceWriter.Reached (ε : Type) (base n : Nat) :
    PinSliceWriter → Nat → Prop
  | new : PinSliceWriter.Reached ε base n (PinSliceWriter.new base n) 0
  | write_ok {w w' : PinSliceWriter} {k : Nat} {init : TryInit ε}
      {tr : List Event} : PinSliceWriter.Reached ε base n w k →
      w.try_write init = (.ok w', tr) →
      PinSliceWriter.Reached ε base n w' (k + 1)
  | write_err {w w' : PinSliceWriter} {k : Nat} {init : TryInit ε} {e : ε}
      {tr : List Event} : PinSliceWriter.Reached ε base n w k →
      w.try_write init = (.err e w', tr) →
      PinSliceWriter.Reached ε base n w' k

theorem PinSliceWriter.pin_writer_reached_state {ε : Type} {base n k : Nat}
    {w : PinSliceWriter} (h : PinSliceWriter.Reached ε base n w k) :
    k ≤ n ∧ w = ⟨base, n, base + k, n - k⟩ := by
  induction h with
  | new => exact ⟨Nat.zero_le n, rfl⟩
  | write_ok _ hw ih =>
    obtain ⟨hk, rfl⟩ := ih
    obtain ⟨hfin, -, rfl⟩ := pin_try_write_ok_inv hw
    simp only [PinSliceWriter.is_finished, beq_eq_false_iff_ne, ne_eq] at hfin
    refine ⟨by omega, ?_⟩
    simp only [PinSliceWriter.mk.injEq]
    exact ⟨trivial, trivial, by omega, by omega⟩
  | write_err _ hw ih =>
    obtain ⟨hk, rfl⟩ := ih
    obtain ⟨-, -, rfl⟩ := pin_try_write_err_inv hw
    exact ⟨hk, rfl⟩

/-- Counting destructor calls in the trace that `drop_in_place` over the
prefix of length `m` at `base` produces: address `base + a` is dropped
once if `a < m` and not at all otherwise. -/
theorem count_dropCall_range (base m a : Nat) :
    ((List.range m).map (fun j => Event.dropCall (base + j))).count
        (Event.dropCall (base + a)) = if a < m then 1 else 0 := by
  induction m with
  | zero => simp
  | succ m ih =>
    rw [List.range_succ, List.map_append, List.count_append, ih]
    by_cases h : a < m
    · have hne : Event.dropCall (base + m) ≠ Event.dropCall (base + a) := by
        simp only [ne_eq, Event.dropCall.injEq]
        omega
      simp [h, Nat.lt_succ_of_lt h, List.count_singleton, hne]
    · by_cases h2 : a = m
      · subst h2
        simp [h, List.count_singleton]
      · have hne : Event.dropCall (base + m) ≠ Event.dropCall (base + a) := by
          simp only [ne_eq, Event.dropCall.injEq]
          omega
        have h3 : ¬a < m + 1 := by omega
        simp [h, h3, List.count_singleton, hne]

/-- Claim C1: for every slice of length n and every SliceWriter (or
PinSliceWriter) that has successfully initialized exactly k ≤ n elements
and is then dropped (after an element initializer failed or by early
discard), the drop runs the element destructor exactly once on each of
the first k elements and never on any element at or past index k. -/
theorem c1_writer_drop_initialized_prefix :
    (∀ (ε : Type) (base n k : Nat) (w : SliceWriter),
        n < USIZE → SliceWriter.Reached ε base n w k →
        (∀ i, i < k →
          (SliceWriter.drop w).count (Event.dropCall (base + i)) = 1) ∧
        (∀ i, k ≤ i →
          (SliceWriter.drop w).count (Event.dropCall (base + i)) = 0)) ∧
    (∀ (ε : Type) (base n k : Nat) (w : PinSliceWriter),
        n < USIZE → PinSliceWriter.Reached ε base n w k →
        (∀ i, i < k →
          (PinSliceWriter.drop w).count (Event.dropCall (base + i)) = 1) ∧
        (∀ i, k ≤ i →
          (PinSliceWriter.drop w).count (Event.dropCall (base + i)) = 0)) := by
  constructor
  · intro ε base n k w hn hr
    obtain ⟨hk, rfl⟩ := SliceWriter.writer_reached_state hr
    have hd : SliceWriter.drop ⟨base, n, base + k, n - k⟩ =
        (List.range k).map (fun j => Event.dropCall (base + j)) := by
      simp only [SliceWriter.drop]
      rw [wrapping_sub_eq_sub (Nat.sub_le n k) hn]
      have hnk : n - (n - k) = k := by omega
      rw [hnk]
    refine ⟨fun i hi => ?_, fun i hi => ?_⟩
    · rw [hd, count_dropCall_range, if_pos hi]
    · rw [hd, count_dropCall_range, if_neg (by omega)]
  · intro ε base n k w hn hr
    obtain ⟨hk, rfl⟩ := PinSliceWriter.pin_writer_reached_state hr
    have hd : PinSliceWriter.drop ⟨base, n, base + k, n - k⟩ =
        (List.range k).map (fun j => Event.dropCall (base + j)) := by
      simp only [PinSliceWriter.drop]
      rw [wrapping_sub_eq_sub (Nat.sub_le n k) hn]
      have hnk : n - (n - k) = k := by omega
      rw [hnk]
    refine ⟨fun i hi => ?_, fun i hi => ?_⟩
    · rw [hd, count_dropCall_range, if_pos hi]
    · rw [hd, count_dropCall_range, if_neg (by omega)]

theorem c1_writer_drop_initialized_prefix_witness :
    (SliceWriter.drop ⟨0, 2, 1, 1⟩).count (Event.dropCall 0) = 1 ∧
    (SliceWriter.drop ⟨0, 2, 1, 1⟩).count (Event.dropCall 1) = 0 ∧
    (PinSliceWriter.drop ⟨0, 2, 1, 1⟩).count (Event.dropCall 0) = 1 ∧
    (PinSliceWriter.drop ⟨0, 2, 1, 1⟩).count (Event.dropCall 1) = 0 := by
  have h1 := c1_writer_drop_initialized_prefix.1 Unit 0 2 1 ⟨0, 2, 1, 1⟩
    (by decide)
    (@SliceWriter.Reached.write_ok Unit 0 2 (SliceWriter.new 0 2) ⟨0, 2, 1, 1⟩
      0 (fun p => Except.ok p) [Event.initCall 0]
      SliceWriter.Reached.new rfl)
  have h2 := c1_writer_drop_initialized_prefix.2 Unit 0 2 1 ⟨0, 2, 1, 1⟩
    (by decide)
    (@PinSliceWriter.Reached.write_ok Unit 0 2 (PinSliceWriter.new 0 2)
      ⟨0, 2, 1, 1⟩ 0 (fun p => Except.ok p) [Event.initCall 0]
      PinSliceWriter.Reached.new rfl)
  refine ⟨?_, ?_, ?_, ?_⟩
  · simpa using h1.1 0 (by decide)
  · simpa using h1.2 1 (by decide)
  · simpa using h2.1 0 (by decide)
  · simpa using h2.2 1 (by decide)

/-- Claim C4: a successful run of try_init_in_place (or its pinned
variant) implies the initializer returned a handle at exactly the address
it was given; a mismatching success is caught by the debug-mode fatal
assertion (panic), not reported as a recoverable error; and Uninit::write
returns an Init over the same address as the Uninit it consumed. -/
theorem c4_identity_invariant :
    (∀ (ε : Type) (init : TryInit ε) (ptr : Nat),
        try_init_in_place init ptr = .val (.ok ()) → init ptr = .ok ptr) ∧
    (∀ (ε : Type) (init : TryInit ε) (ptr old : Nat),
        init ptr = .ok old → old ≠ ptr →
        try_init_in_place init ptr = .panicked) ∧
    (∀ (ε : Type) (init : TryInit ε) (ptr : Nat),
        try_pin_init_in_place init ptr = .val (.ok ()) → init ptr = .ok ptr) ∧
    (∀ (ε : Type) (init : TryInit ε) (ptr old : Nat),
        init ptr = .ok old → old ≠ ptr →
        try_pin_init_in_place init ptr = .panicked) ∧
    (∀ (α : Type) (u : Uninit) (v : α), (u.write v).addr = u.addr) := by
  refine ⟨?_, ?_, ?_, ?_, fun α u v => rfl⟩
  · intro ε init ptr h
    rcases hi : init ptr with e | old
    · simp only [try_init_in_place, hi] at h
      exact absurd h (by simp)
    · simp only [try_init_in_place, hi] at h
      by_cases hpo : ptr = old
      · rw [hpo]
      · rw [if_neg hpo] at h
        exact absurd h (by simp)
  · intro ε init ptr old h hne
    simp only [try_init_in_place, h]
    rw [if_neg (show ¬ptr = old from fun hh => hne hh.symm)]
  · intro ε init ptr h
    rcases hi : init ptr with e | old
    · simp only [try_pin_init_in_place, hi] at h
      exact absurd h (by simp)
    · simp only [try_pin_init_in_place, hi] at h
      by_cases hpo : ptr = old
      · rw [hpo]
      · rw [if_neg hpo] at h
        exact absurd h (by simp)
  · intro ε init ptr old h hne
    simp only [try_pin_init_in_place, h]
    rw [if_neg (show ¬ptr = old from fun hh => hne hh.symm)]

theorem c4_identity_invariant_witness :
    ((fun p => (Except.ok p : Except Unit Nat)) 5 = Except.ok 5) ∧
    try_init_in_place (fun _ => (Except.ok 7 : Except Unit Nat)) 5 =
      POut.panicked ∧
    ((fun p => (Except.ok p : Except Unit Nat)) 6 = Except.ok 6) ∧
    try_pin_init_in_place (fun _ => (Except.ok 9 : Except Unit Nat)) 6 =
      POut.panicked ∧
    (Uninit.write ⟨3⟩ (42 : Nat)).addr = 3 :=
  ⟨c4_identity_invariant.1 Unit (fun p => Except.ok p) 5 rfl,
   c4_identity_invariant.2.1 Unit (fun _ => Except.ok 7) 5 7 rfl (by decide),
   c4_identity_invariant.2.2.1 Unit (fun p => Except.ok p) 6 rfl,
   c4_identity_invariant.2.2.2.1 Unit (fun _ => Except.ok 9) 6 9 rfl
     (by decide),
   c4_identity_invariant.2.2.2.2 Nat ⟨3⟩ 42⟩

/-- Claim C5: on a not-finished SliceWriter, try_write invokes the
initializer on exactly the next uninitialized element (one initializer
invocation at the cursor); on Ok the cursor advances by one and remaining
decreases by one; on Err(e) the error is returned and the writer state is
exactly as before the call. -/
theorem c5_try_write_next_element :
    ∀ (ε : Type) (w : SliceWriter) (init : TryInit ε),
      w.is_finished = false →
      (w.try_write init).2 = [Event.initCall w.current] ∧
      (init w.current = .ok w.current →
        (w.try_write init).1 =
          .ok ⟨w.base, w.len, w.current + 1, w.remaining - 1⟩) ∧
      (∀ e, init w.current = .error e → (w.try_write init).1 = .err e w) := by
  intro ε w init hfin
  refine ⟨?_, ?_, ?_⟩
  · rcases hi : init w.current with e | old
    · rw [try_write_of_error hfin hi]
    · by_cases hol : old = w.current
      · subst hol
        rw [try_write_of_ok_id hfin hi]
      · rw [try_write_of_ok_mismatch hfin hi hol]
  · intro h
    rw [try_write_of_ok_id hfin h]
  · intro e h
    rw [try_write_of_error hfin h]

theorem c5_try_write_next_element_witness :
    ((SliceWriter.mk 0 3 0 3).try_write
        (fun p => (Except.ok p : Except Unit Nat))).1 =
      WriteResult.ok ⟨0, 3, 1, 2⟩ ∧
    ((SliceWriter.mk 0 3 0 3).try_write
        (fun _ => (Except.error () : Except Unit Nat))).1 =
      WriteResult.err () ⟨0, 3, 0, 3⟩ ∧
    ((SliceWriter.mk 0 3 0 3).try_write
        (fun p => (Except.ok p : Except Unit Nat))).2 =
      [Event.initCall 0] := by
  have h1 := c5_try_write_next_element Unit ⟨0, 3, 0, 3⟩
    (fun p => Except.ok p) rfl
  have h2 := c5_try_write_next_element Unit ⟨0, 3, 0, 3⟩
    (fun _ => Except.error ()) rfl
  exact ⟨h1.2.1 rfl, h2.2.2 () rfl, h1.1⟩

/-- Claim C9: dropping an Init handle runs the pointee destructor exactly
once; Init::into_raw returns the raw address and suppresses the automatic
destructor (empty effect trace); dropping an Uninit runs no destructor. -/
theorem c9_handle_drop_semantics :
    ∀ (i : Init) (u : Uninit),
      Init.drop i = [Event.dropCall i.addr] ∧
      (Init.drop i).count (Event.dropCall i.addr) = 1 ∧
      Init.into_raw i = (i.addr, ([] : List Event)) ∧
      Uninit.drop u = [] := by
  intro i u
  exact ⟨rfl, by simp [Init.drop], rfl, rfl⟩

/-- `init::boxed::AllocError<E>` (src/init/src/boxed.rs): emplace failure.
`LayoutError` carries no data of interest and is modelled as `Unit`. -/
inductive AllocError (ε : Type)
  | Init (e : ε)
  | Layout (e : Unit)
  | Alloc (layout : Layout)

/-- A `LayoutProvider<T>` implementation (src/init/src/traits.rs): a
layout computation and an address-preserving pointer cast (only the
address part of the produced pointer is relevant to the emplace path;
`cast_nonnull` forwards to `cast`). -/
structure Provider where
  layout_for : Except Unit Layout
  cast : Nat → Nat

/-- `init::boxed::try_emplace` (src/init/src/boxed.rs, lines 61-113).
The external allocator is a function from the layout to the returned raw
address, with `0` playing the role of a null pointer.  Steps, as in the
source: compute the layout (error → `AllocError::Layout`); if
`layout.size() == 0` use `layout.align()` as the pointer without calling
the allocator, otherwise call `alloc::alloc(layout)` (recorded as an
`Event.alloc`); `NonNull::new` check (null → `AllocError::Alloc(layout)`);
cast through the provider; construct the `RawAllocation` guard; run
`try_init_in_place` at the cast address (recorded as `Event.initCall`);
on error the guard deallocates (one `Event.dealloc` with the same address
and layout) and `AllocError::Init(e)` is returned; on success the guard
is `mem::forget`-disarmed (no dealloc event) and `Box::from_raw` takes
over the address.  On a panic from the identity assertion the unwind also
runs the guard. -/
def try_emplace {ε : Type} (provider : Provider) (alloc : Layout → Nat)
    (init : TryInit ε) : POut (Except (AllocError ε) Nat) × List Event :=
  match provider.layout_for with
  | .error err => (.val (.error (.Layout err)), [])
  | .ok layout =>
    let raw : Nat := if layout.size = 0 then layout.align else alloc layout
    let tr : List Event :=
      if layout.size = 0 then [] else [Event.alloc layout]
    if raw = 0 then (.val (.error (.Alloc layout)), tr)
    else
      let p : Nat := provider.cast raw
      match try_init_in_place init p with
      | .val (.error e) =>
          (.val (.error (.Init e)),
           tr ++ [Event.initCall p, Event.dealloc p layout])
      | .val (.ok ()) => (.val (.ok p), tr ++ [Event.initCall p])
      | .panicked =>
          (.panicked, tr ++ [Event.initCall p, Event.dealloc p layout])

/-- `init::boxed::try_emplace_pin` (src/init/src/boxed.rs, lines
116-175): same body as `try_emplace` with `try_pin_init_in_place` and a
final `Box::into_pin` (address-preserving). -/
def try_emplace_pin {ε : Type} (provider : Provider) (alloc : Layout → Nat)
    (init : TryInit ε) : POut (Except (AllocError ε) Nat) × List Event :=
  match provider.layout_for with
  | .error err => (.val (.error (.Layout err)), [])
  | .ok layout =>
    let raw : Nat := if layout.size = 0 then layout.align else alloc layout
    let tr : List Event :=
      if layout.size = 0 then [] else [Event.alloc layout]
    if raw = 0 then (.val (.error (.Alloc layout)), tr)
    else
      let p : Nat := provider.cast raw
      match try_pin_init_in_place init p with
      | .val (.error e) =>
          (.val (.error (.Init e)),
           tr ++ [Event.initCall p, Event.dealloc p layout])
      | .val (.ok ()) => (.val (.ok p), tr ++ [Event.initCall p])
      | .panicked =>
          (.panicked, tr ++ [Event.initCall p, Event.dealloc p layout])

/-- `isize::MAX` on a 64-bit target, the bound used by `Layout`'s
overflow check. -/
def isize_max : Nat := 2 ^ 63 - 1

/-- `SizedLayoutProvider::layout_for` (src/init/src/layout.rs, lines
13-18): `Ok(Layout::new::<T>())`, never an error.  A Rust type is
represented by its layout. -/
def SizedLayoutProvider.layout_for (t : Layout) : Except Unit Layout :=
  .ok t

/-- `SizedLayoutProvider::cast` (src/init/src/layout.rs, lines 20-23):
`ptr.cast()`, address unchanged. -/
def SizedLayoutProvider.cast (ptr : Nat) : Nat :=
  ptr

/-- `Layout::array::<T>(n)`: element size times the length, with the
standard overflow check against `isize::MAX` (rounded for alignment);
`LayoutError` on overflow. -/
def Layout.array (elem : Layout) (n : Nat) : Except Unit Layout :=
  if elem.size * n + (elem.align - 1) ≤ isize_max then
    .ok ⟨elem.size * n, elem.align⟩
  else
    .error ()

/-- `SliceLayoutProvider::layout_for` (src/init/src/layout.rs, lines
30-34): `Layout::array::<T>(self.0)` for the stored length. -/
def SliceLayoutProvider.layout_for (elem : Layout) (n : Nat) :
    Except Unit Layout :=
  Layout.array elem n

/-- `SliceLayoutProvider::cast` (src/init/src/layout.rs, lines 36-39):
`slice_from_raw_parts_mut(ptr.cast(), self.0)` — a fat pointer whose
address is the input address and whose metadata is the stored length. -/
def SliceLayoutProvider.cast (n : Nat) (ptr : Nat) : Nat × Nat :=
  (ptr, n)

/-- The `SizedLayoutProvider` packaged for the emplace path. -/
def sizedProvider (t : Layout) : Provider :=
  ⟨SizedLayoutProvider.layout_for t, SizedLayoutProvider.cast⟩

/-- The `SliceLayoutProvider` packaged for the emplace path (the address
part of the fat pointer is what the allocation guard and `Box` use). -/
def sliceProvider (elem : Layout) (n : Nat) : Provider :=
  ⟨SliceLayoutProvider.layout_for elem n,
   fun p => (SliceLayoutProvider.cast n p).1⟩

theorem try_emplace_init_error {ε : Type} {provider : Provider}
    {alloc : Layout → Nat} {init : TryInit ε} {layout : Layout}
    {raw p : Nat} {e : ε} (hl : provider.layout_for = .ok layout)
    (hraw : (if layout.size = 0 then layout.align else alloc layout) = raw)
    (h0 : raw ≠ 0) (hp : provider.cast raw = p) (hi : init p = .error e) :
    try_emplace provider alloc init =
      (.val (.error (.Init e)),
       (if layout.size = 0 then [] else [Event.alloc layout]) ++
         [Event.initCall p, Event.dealloc p layout]) := by
  simp [try_emplace, hl, hraw, h0, hp, try_init_in_place, hi]

theorem try_emplace_init_ok {ε : Type} {provider : Provider}
    {alloc : Layout → Nat} {init : TryInit ε} {layout : Layout}
    {raw p : Nat} (hl : provider.layout_for = .ok layout)
    (hraw : (if layout.size = 0 then layout.align else alloc layout) = raw)
    (h0 : raw ≠ 0) (hp : provider.cast raw = p) (hi : init p = .ok p) :
    try_emplace provider alloc init =
      (.val (.ok p),
       (if layout.size = 0 then [] else [Event.alloc layout]) ++
         [Event.initCall p]) := by
  simp [try_emplace, hl, hraw, h0, hp, try_init_in_place, hi]

theorem try_emplace_alloc_null {ε : Type} {provider : Provider}
    {alloc : Layout → Nat} {init : TryInit ε} {layout : Layout}
    (hl : provider.layout_for = .ok layout)
    (hraw : (if layout.size = 0 then layout.align else alloc layout) = 0) :
    try_emplace provider alloc init =
      (.val (.error (.Alloc layout)),
       if layout.size = 0 then [] else [Event.alloc layout]) := by
  simp [try_emplace, hl, hraw]

theorem try_emplace_pin_init_error {ε : Type} {provider : Provider}
    {alloc : Layout → Nat} {init : TryInit ε} {layout : Layout}
    {raw p : Nat} {e : ε} (hl : provider.layout_for = .ok layout)
    (hraw : (if layout.size = 0 then layout.align else alloc layout) = raw)
    (h0 : raw ≠ 0) (hp : provider.cast raw = p) (hi : init p = .error e) :
    try_emplace_pin provider alloc init =
      (.val (.error (.Init e)),
       (if layout.size = 0 then [] else [Event.alloc layout]) ++
         [Event.initCall p, Event.dealloc p layout]) := by
  simp [try_emplace_pin, hl, hraw, h0, hp, try_pin_init_in_place, hi]

theorem try_emplace_pin_init_ok {ε : Type} {provider : Provider}
    {alloc : Layout → Nat} {init : TryInit ε} {layout : Layout}
    {raw p : Nat} (hl : provider.layout_for = .ok layout)
    (hraw : (if layout.size = 0 then layout.align else alloc layout) = raw)
    (h0 : raw ≠ 0) (hp : provider.cast raw = p) (hi : init p = .ok p) :
    try_emplace_pin provider alloc init =
      (.val (.ok p),
       (if layout.size = 0 then [] else [Event.alloc layout]) ++
         [Event.initCall p]) := by
  simp [try_emplace_pin, hl, hraw, h0, hp, try_pin_init_in_place, hi]

theorem try_emplace_init_panic {ε : Type} {provider : Provider}
    {alloc : Layout → Nat} {init : TryInit ε} {layout : Layout}
    {raw p old : Nat} (hl : provider.layout_for = .ok layout)
    (hraw : (if layout.size = 0 then layout.align else alloc layout) = raw)
    (h0 : raw ≠ 0) (hp : provider.cast raw = p) (hi : init p = .ok old)
    (hne : old ≠ p) :
    try_emplace provider alloc init =
      (.panicked,
       (if layout.size = 0 then [] else [Event.alloc layout]) ++
         [Event.initCall p, Event.dealloc p layout]) := by
  simp [try_emplace, hl, hraw, h0, hp, try_init_in_place, hi,
    if_neg (show ¬p = old from fun hh => hne hh.symm)]

theorem try_emplace_pin_init_panic {ε : Type} {provider : Provider}
    {alloc : Layout → Nat} {init : TryInit ε} {layout : Layout}
    {raw p old : Nat} (hl : provider.layout_for = .ok layout)
    (hraw : (if layout.size = 0 then layout.align else alloc layout) = raw)
    (h0 : raw ≠ 0) (hp : provider.cast raw = p) (hi : init p = .ok old)
    (hne : old ≠ p) :
    try_emplace_pin provider alloc init =
      (.panicked,
       (if layout.size = 0 then [] else [Event.alloc layout]) ++
         [Event.initCall p, Event.dealloc p layout]) := by
  simp [try_emplace_pin, hl, hraw, h0, hp, try_pin_init_in_place, hi,
    if_neg (show ¬p = old from fun hh => hne hh.symm)]

theorem try_emplace_pin_alloc_null {ε : Type} {provider : Provider}
    {alloc : Layout → Nat} {init : TryInit ε} {layout : Layout}
    (hl : provider.layout_for = .ok layout)
    (hraw : (if layout.size = 0 then layout.align else alloc layout) = 0) :
    try_emplace_pin provider alloc init =
      (.val (.error (.Alloc layout)),
       if layout.size = 0 then [] else [Event.alloc layout]) := by
  simp [try_emplace_pin, hl, hraw]

/-- Claim C2: when the allocation step of try_emplace succeeds (a
non-null pointer, real or sentinel) and the initializer then fails with
e, the result is AllocError::Init(e), the block is deallocated exactly
once and only with the address and layout it was allocated with, and no
destructor of the target runs; when the initializer succeeds the guard
is disarmed: the result owns the address and no deallocation happens. -/
theorem c2_emplace_rollback :
    ∀ (ε : Type) (provider : Provider) (alloc : Layout → Nat)
      (init : TryInit ε) (layout : Layout) (raw p : Nat),
      provider.layout_for = .ok layout →
      (if layout.size = 0 then layout.align else alloc layout) = raw →
      raw ≠ 0 →
      provider.cast raw = p →
      (∀ e, init p = .error e →
        (try_emplace provider alloc init).1 = .val (.error (.Init e)) ∧
        (try_emplace provider alloc init).2.count
            (Event.dealloc p layout) = 1 ∧
        (∀ a l, Event.dealloc a l ∈ (try_emplace provider alloc init).2 →
          a = p ∧ l = layout) ∧
        (∀ a, Event.dropCall a ∉ (try_emplace provider alloc init).2)) ∧
      (init p = .ok p →
        (try_emplace provider alloc init).1 = .val (.ok p) ∧
        (∀ a l, Event.dealloc a l ∉ (try_emplace provider alloc init).2)) := by
  intro ε provider alloc init layout raw p hl hraw h0 hp
  constructor
  · intro e hi
    rw [try_emplace_init_error hl hraw h0 hp hi]
    refine ⟨rfl, ?_, ?_, ?_⟩
    · by_cases hsz : layout.size = 0 <;>
        simp [hsz, List.count_append, List.count_cons]
    · intro a l hmem
      by_cases hsz : layout.size = 0 <;> simp [hsz] at hmem <;>
        exact ⟨hmem.1, hmem.2⟩
    · intro a
      by_cases hsz : layout.size = 0 <;> simp [hsz]
  · intro hi
    rw [try_emplace_init_ok hl hraw h0 hp hi]
    refine ⟨rfl, ?_⟩
    intro a l
    by_cases hsz : layout.size = 0 <;> simp [hsz]

theorem c2_emplace_rollback_witness :
    (try_emplace (sizedProvider ⟨4, 4⟩) (fun _ => 100)
        (fun _ => (Except.error () : Except Unit Nat))).1 =
      .val (.error (.Init ())) ∧
    (try_emplace (sizedProvider ⟨4, 4⟩) (fun _ => 100)
        (fun _ => (Except.error () : Except Unit Nat))).2.count
        (Event.dealloc 100 ⟨4, 4⟩) = 1 ∧
    (try_emplace (sizedProvider ⟨4, 4⟩) (fun _ => 100)
        (fun q => (Except.ok q : Except Unit Nat))).1 = .val (.ok 100) := by
  have h1 := c2_emplace_rollback Unit (sizedProvider ⟨4, 4⟩) (fun _ => 100)
    (fun _ => Except.error ()) ⟨4, 4⟩ 100 100 rfl rfl (by decide) rfl
  have h2 := c2_emplace_rollback Unit (sizedProvider ⟨4, 4⟩) (fun _ => 100)
    (fun q => Except.ok q) ⟨4, 4⟩ 100 100 rfl rfl (by decide) rfl
  exact ⟨(h1.1 () rfl).1, (h1.1 () rfl).2.1, (h2.2 rfl).1⟩

/-- Claim C7: when the allocator returns null for the non-zero-size
layout the provider computed, try_emplace returns AllocError::Alloc with
exactly that layout, the initializer is never invoked, and no
deallocation or destructor call occurs. -/
theorem c7_alloc_failure :
    ∀ (ε : Type) (provider : Provider) (alloc : Layout → Nat)
      (init : TryInit ε) (layout : Layout),
      provider.layout_for = .ok layout → layout.size ≠ 0 →
      alloc layout = 0 →
      try_emplace provider alloc init =
        (.val (.error (.Alloc layout)), [Event.alloc layout]) ∧
      (∀ a, Event.initCall a ∉ (try_emplace provider alloc init).2) ∧
      (∀ a l, Event.dealloc a l ∉ (try_emplace provider alloc init).2) ∧
      (∀ a, Event.dropCall a ∉ (try_emplace provider alloc init).2) := by
  intro ε provider alloc init layout hl hsz halloc
  have hres : try_emplace provider alloc init =
      (.val (.error (.Alloc layout)), [Event.alloc layout]) := by
    have h := @try_emplace_alloc_null ε provider alloc init layout hl
      (by rw [if_neg hsz]; exact halloc)
    rw [h, if_neg hsz]
  refine ⟨hres, ?_, ?_, ?_⟩ <;> simp [hres]

theorem c7_alloc_failure_witness :
    try_emplace (sizedProvider ⟨4, 4⟩) (fun _ => 0)
        (fun q => (Except.ok q : Except Unit Nat)) =
      (.val (.error (.Alloc ⟨4, 4⟩)), [Event.alloc ⟨4, 4⟩]) :=
  (c7_alloc_failure Unit (sizedProvider ⟨4, 4⟩) (fun _ => 0)
    (fun q => Except.ok q) ⟨4, 4⟩ rfl (by decide) rfl).1

/-- Claim C6: for a zero-size layout, try_emplace and try_emplace_pin
never call the allocator (no allocation event), use the layout's
alignment as the sentinel address, and on successful initialization
return a valid owned handle over that sentinel; the slice provider with
length 0 and the sized provider for a zero-sized type compute such
zero-size layouts. -/
theorem c6_zero_size_sentinel :
    (∀ (ε : Type) (provider : Provider) (alloc : Layout → Nat)
        (init : TryInit ε) (layout : Layout),
      provider.layout_for = .ok layout → layout.size = 0 →
      layout.align ≠ 0 →
      (∀ l, Event.alloc l ∉ (try_emplace provider alloc init).2) ∧
      (init (provider.cast layout.align) = .ok (provider.cast layout.align) →
        (try_emplace provider alloc init).1 =
          .val (.ok (provider.cast layout.align)))) ∧
    (∀ (ε : Type) (provider : Provider) (alloc : Layout → Nat)
        (init : TryInit ε) (layout : Layout),
      provider.layout_for = .ok layout → layout.size = 0 →
      layout.align ≠ 0 →
      (∀ l, Event.alloc l ∉ (try_emplace_pin provider alloc init).2) ∧
      (init (provider.cast layout.align) = .ok (provider.cast layout.align) →
        (try_emplace_pin provider alloc init).1 =
          .val (.ok (provider.cast layout.align)))) ∧
    (∀ elem : Layout, elem.align - 1 ≤ isize_max →
      SliceLayoutProvider.layout_for elem 0 = .ok ⟨0, elem.align⟩) ∧
    (∀ al : Nat, SizedLayoutProvider.layout_for ⟨0, al⟩ = .ok ⟨0, al⟩) := by
  refine ⟨?_, ?_, ?_, fun al => rfl⟩
  · intro ε provider alloc init layout hl hsz halign
    have hraw : (if layout.size = 0 then layout.align else alloc layout) =
        layout.align := if_pos hsz
    constructor
    · intro l
      rcases hi : init (provider.cast layout.align) with e | old
      · rw [try_emplace_init_error hl hraw halign rfl hi]
        simp [hsz]
      · by_cases hol : old = provider.cast layout.align
        · subst hol
          rw [try_emplace_init_ok hl hraw halign rfl hi]
          simp [hsz]
        · rw [try_emplace_init_panic hl hraw halign rfl hi hol]
          simp [hsz]
    · intro hi
      rw [try_emplace_init_ok hl hraw halign rfl hi]
  · intro ε provider alloc init layout hl hsz halign
    have hraw : (if layout.size = 0 then layout.align else alloc layout) =
        layout.align := if_pos hsz
    constructor
    · intro l
      rcases hi : init (provider.cast layout.align) with e | old
      · rw [try_emplace_pin_init_error hl hraw halign rfl hi]
        simp [hsz]
      · by_cases hol : old = provider.cast layout.align
        · subst hol
          rw [try_emplace_pin_init_ok hl hraw halign rfl hi]
          simp [hsz]
        · rw [try_emplace_pin_init_panic hl hraw halign rfl hi hol]
          simp [hsz]
    · intro hi
      rw [try_emplace_pin_init_ok hl hraw halign rfl hi]
  · intro elem hal
    simp only [SliceLayoutProvider.layout_for, Layout.array, Nat.mul_zero,
      Nat.zero_add, if_pos hal]

theorem c6_zero_size_sentinel_witness :
    (try_emplace (sliceProvider ⟨4, 4⟩ 0) (fun _ => 100)
        (fun q => (Except.ok q : Except Unit Nat))).1 = .val (.ok 4) ∧
    Event.alloc ⟨0, 4⟩ ∉ (try_emplace (sliceProvider ⟨4, 4⟩ 0)
        (fun _ => 100) (fun q => (Except.ok q : Except Unit Nat))).2 ∧
    (try_emplace_pin (sliceProvider ⟨4, 4⟩ 0) (fun _ => 100)
        (fun q => (Except.ok q : Except Unit Nat))).1 = .val (.ok 4) ∧
    SliceLayoutProvider.layout_for ⟨4, 4⟩ 0 = .ok ⟨0, 4⟩ := by
  have h1 := c6_zero_size_sentinel.1 Unit (sliceProvider ⟨4, 4⟩ 0)
    (fun _ => 100) (fun q => Except.ok q) ⟨0, 4⟩ rfl rfl (by decide)
  have h2 := c6_zero_size_sentinel.2.1 Unit (sliceProvider ⟨4, 4⟩ 0)
    (fun _ => 100) (fun q => Except.ok q) ⟨0, 4⟩ rfl rfl (by decide)
  have h3 := c6_zero_size_sentinel.2.2.1 ⟨4, 4⟩ (by decide)
  exact ⟨h1.2 rfl, h1.1 ⟨0, 4⟩, h2.2 rfl, h3⟩

/-- Claim C10: SizedLayoutProvider::layout_for always returns Ok with
the type's layout (its Err branch is unreachable), SizedLayoutProvider::cast
returns exactly the input address, and SliceLayoutProvider::cast returns
the input address with the stored length attached as slice metadata. -/
theorem c10_layout_provider_contracts :
    (∀ t : Layout, SizedLayoutProvider.layout_for t = .ok t) ∧
    (∀ ptr : Nat, SizedLayoutProvider.cast ptr = ptr) ∧
    (∀ n ptr : Nat, (SliceLayoutProvider.cast n ptr).1 = ptr ∧
      (SliceLayoutProvider.cast n ptr).2 = n) :=
  ⟨fun _ => rfl, fun _ => rfl, fun _ _ => ⟨rfl, rfl⟩⟩

/-- `AsPinInit::try_pin_init` (src/ip-init/src/pin.rs, lines 37-47, and
identically src/init/src/pin.rs, lines 33-43): on `Ok(init)` the handle
is re-wrapped (`PinnedInit::new` / `Pin::new`, address-preserving) and
returned; the `Err(_)` arm is literally `todo!()`, which panics. -/
def AsPinInit.try_pin_init {ε : Type} (init : TryInit ε) (ptr : Nat) :
    POut (Except ε Nat) :=
  match init ptr with
  | .ok i => .val (.ok i)
  | .error _ => .panicked

/-- Claim C3 (evidence of the code bug): driving to_pin_init through a
failing underlying initializer does not propagate Err(e) — the Err arm of
AsPinInit::try_pin_init is todo!(), so the call panics; the success path
works and returns the initialized handle. -/
theorem c3_as_pin_init_error_panics :
    AsPinInit.try_pin_init (fun _ => (Except.error () : Except Unit Nat)) 0 =
      .panicked ∧
    AsPinInit.try_pin_init (fun q => (Except.ok q : Except Unit Nat)) 0 =
      .val (.ok 0) :=
  ⟨rfl, rfl⟩

/-- `SliceIterInitError` (src/ip-init/src/slice.rs, lines 72-78). -/
inductive SliceIterInitError (ε : Type)
  | NotEnoughItems
  | Init (e : ε)

/-- The closure body of `SliceIterInit::try_init` for one loop step
(src/ip-init/src/slice.rs, lines 86-92):
`self.0.next().ok_or(SliceIterInitError::NotEnoughItems)?` then
`uninit.try_init(item).map_err(SliceIterInitError::Init)`; `item` is the
initializer the iterator yields for this step, if any. -/
def SliceIterInit.next_init {ε : Type} (item : Option (TryInit ε)) :
    TryInit (SliceIterInitError ε) :=
  fun ptr =>
    match item with
    | none => .error .NotEnoughItems
    | some i =>
      match i ptr with
      | .ok q => .ok q
      | .error e => .error (.Init e)

/-- `SliceWriter::try_for_each` driven by the `SliceIterInit` closure
(src/ip-init/src/slice/writer.rs, lines 44-53, instantiated as in
src/ip-init/src/slice.rs, lines 86-92): while the writer is not
finished, `try_write` the closure (which pulls the next initializer off
the iterator), propagating its error; once finished, `finish()` yields
the initialized slice handle (its base pointer and length).  The
iterator is modelled by the list of initializers it yields, consumed one
per loop step; that makes the loop structural in the list.  In the
exhausted-iterator case the closure always fails, so `try_write` cannot
succeed there; that dead branch is mapped to `panicked`. -/
def SliceIterInit.try_for_each {ε : Type} :
    SliceWriter → List (TryInit ε) →
      POut (Except (SliceIterInitError ε) (Nat × Nat))
  | w, [] =>
    if w.is_finished then .val (.ok (w.base, w.len))
    else
      match w.try_write (SliceIterInit.next_init none) with
      | (.err e _, _) => .val (.error e)
      | (_, _) => .panicked
  | w, i :: rest =>
    if w.is_finished then .val (.ok (w.base, w.len))
    else
      match w.try_write (SliceIterInit.next_init (some i)) with
      | (.ok w', _) => SliceIterInit.try_for_each w' rest
      | (.err e _, _) => .val (.error e)
      | (.panic, _) => .panicked

/-- `<SliceIterInit as TryInitialize<[T]>>::try_init`
(src/ip-init/src/slice.rs, lines 86-92): build the writer over the
uninit slice (at `base`, length `n`) and drive `try_for_each` with the
iterator's initializers. -/
def SliceIterInit.try_init {ε : Type} (items : List (TryInit ε))
    (base n : Nat) : POut (Except (SliceIterInitError ε) (Nat × Nat)) :=
  SliceIterInit.try_for_each (SliceWriter.new base n) items

theorem try_for_each_not_enough {ε : Type} :
    ∀ (items : List (TryInit ε)) (w : SliceWriter),
      items.length < w.remaining →
      (∀ j (hj : j < items.length),
        items.get ⟨j, hj⟩ (w.current + j) = .ok (w.current + j)) →
      SliceIterInit.try_for_each w items = .val (.error .NotEnoughItems) := by
  intro items
  induction items with
  | nil =>
    intro w hlen _
    have hfin : w.is_finished = false := by
      simp only [SliceWriter.is_finished, beq_eq_false_iff_ne, ne_eq]
      simp only [List.length_nil] at hlen
      omega
    have hw := try_write_of_error hfin
      (show SliceIterInit.next_init (none : Option (TryInit ε)) w.current =
        .error .NotEnoughItems from rfl)
    simp [SliceIterInit.try_for_each, hfin, hw]
  | cons i rest ih =>
    intro w hlen hsucc
    simp only [List.length_cons] at hlen
    have hfin : w.is_finished = false := by
      simp only [SliceWriter.is_finished, beq_eq_false_iff_ne, ne_eq]
      omega
    have h0 : i w.current = .ok w.current := by
      have := hsucc 0 (by simp)
      simpa using this
    have hni : SliceIterInit.next_init (some i) w.current =
        .ok w.current := by
      simp [SliceIterInit.next_init, h0]
    have hw := try_write_of_ok_id hfin hni
    have hsucc' : ∀ j (hj : j < rest.length),
        rest.get ⟨j, hj⟩ (w.current + 1 + j) = .ok (w.current + 1 + j) := by
      intro j hj
      have hj' : j + 1 < (i :: rest).length := by
        simp only [List.length_cons]
        omega
      have h2 := hsucc (j + 1) hj'
      have hget : (i :: rest).get ⟨j + 1, hj'⟩ = rest.get ⟨j, hj⟩ := rfl
      rw [hget] at h2
      have harith : w.current + (j + 1) = w.current + 1 + j := by omega
      rw [harith] at h2
      exact h2
    have hrec := ih ⟨w.base, w.len, w.current + 1, w.remaining - 1⟩
      (by simp; omega) hsucc'
    simp [SliceIterInit.try_for_each, hfin, hw, hrec]

theorem try_for_each_init_error {ε : Type} :
    ∀ (items : List (TryInit ε)) (w : SliceWriter) (j : Nat)
      (hj : j < items.length) (e : ε),
      j < w.remaining →
      (∀ l (hl : l < j),
        items.get ⟨l, Nat.lt_trans hl hj⟩ (w.current + l) =
          .ok (w.current + l)) →
      items.get ⟨j, hj⟩ (w.current + j) = .error e →
      SliceIterInit.try_for_each w items = .val (.error (.Init e)) := by
  intro items
  induction items with
  | nil =>
    intro w j hj
    exact absurd hj (by simp)
  | cons i rest ih =>
    intro w j hj e hr hprev herr
    have hfin : w.is_finished = false := by
      simp only [SliceWriter.is_finished, beq_eq_false_iff_ne, ne_eq]
      omega
    cases j with
    | zero =>
      have h0 : i w.current = .error e := by simpa using herr
      have hni : SliceIterInit.next_init (some i) w.current =
          .error (.Init e) := by
        simp [SliceIterInit.next_init, h0]
      have hw := try_write_of_error hfin hni
      simp [SliceIterInit.try_for_each, hfin, hw]
    | succ j' =>
      have h0 : i w.current = .ok w.current := by
        have := hprev 0 (Nat.succ_pos j')
        simpa using this
      have hni : SliceIterInit.next_init (some i) w.current =
          .ok w.current := by
        simp [SliceIterInit.next_init, h0]
      have hw := try_write_of_ok_id hfin hni
      have hj' : j' < rest.length := by
        simp only [List.length_cons] at hj
        omega
      have hprev' : ∀ l (hl : l < j'),
          rest.get ⟨l, Nat.lt_trans hl hj'⟩ (w.current + 1 + l) =
            .ok (w.current + 1 + l) := by
        intro l hl
        have hl' : l + 1 < j' + 1 := by omega
        have h2 := hprev (l + 1) hl'
        have hget : (i :: rest).get ⟨l + 1, Nat.lt_trans hl' hj⟩ =
            rest.get ⟨l, Nat.lt_trans hl hj'⟩ := rfl
        rw [hget] at h2
        have harith : w.current + (l + 1) = w.current + 1 + l := by omega
        rw [harith] at h2
        exact h2
      have herr' : rest.get ⟨j', hj'⟩ (w.current + 1 + j') = .error e := by
        have hget : (i :: rest).get ⟨j' + 1, hj⟩ = rest.get ⟨j', hj'⟩ := rfl
        rw [hget] at herr
        have harith : w.current + (j' + 1) = w.current + 1 + j' := by omega
        rw [harith] at herr
        exact herr
      have hrec := ih ⟨w.base, w.len, w.current + 1, w.remaining - 1⟩ j' hj'
        e (by simp; omega) hprev' herr'
      simp [SliceIterInit.try_for_each, hfin, hw, hrec]

theorem try_for_each_not_enough_inv {ε : Type} :
    ∀ (items : List (TryInit ε)) (w : SliceWriter),
      SliceIterInit.try_for_each w items = .val (.error .NotEnoughItems) →
      items.length < w.remaining := by
  intro items
  induction items with
  | nil =>
    intro w h
    cases hfin : w.is_finished with
    | true =>
      rw [SliceIterInit.try_for_each, if_pos (by simp [hfin])] at h
      exact absurd h (by simp)
    | false =>
      have : w.remaining ≠ 0 := by
        simpa [SliceWriter.is_finished, beq_eq_false_iff_ne] using hfin
      simp only [List.length_nil]
      omega
  | cons i rest ih =>
    intro w h
    cases hfin : w.is_finished with
    | true =>
      rw [SliceIterInit.try_for_each, if_pos (by simp [hfin])] at h
      exact absurd h (by simp)
    | false =>
      have hrem : w.remaining ≠ 0 := by
        simpa [SliceWriter.is_finished, beq_eq_false_iff_ne] using hfin
      rcases hi : i w.current with e | old
      · have hni : SliceIterInit.next_init (some i) w.current =
            .error (.Init e) := by
          simp [SliceIterInit.next_init, hi]
        have hw := try_write_of_error hfin hni
        simp [SliceIterInit.try_for_each, hfin, hw] at h
      · by_cases hol : old = w.current
        · subst hol
          have hni : SliceIterInit.next_init (some i) w.current =
              .ok w.current := by
            simp [SliceIterInit.next_init, hi]
          have hw := try_write_of_ok_id hfin hni
          simp only [SliceIterInit.try_for_each, hfin, Bool.false_eq_true,
            if_false, hw] at h
          have := ih _ h
          simp only [List.length_cons]
          simp at this
          omega
        · have hni : SliceIterInit.next_init (some i) w.current =
              .ok old := by
            simp [SliceIterInit.next_init, hi]
          have hw := try_write_of_ok_mismatch hfin hni hol
          simp [SliceIterInit.try_for_each, hfin, hw] at h

/-- Claim C8: for a slice of length n driven by SliceIterInit over an
iterator (modelled by the list of initializers it yields): if the
iterator is exhausted after m < n initializers that all succeeded,
try_init returns Err(NotEnoughItems); an error e from a yielded
initializer is returned as the distinct Init(e) variant instead; and
NotEnoughItems is only returned when the iterator ran out before the
slice was filled. -/
theorem c8_slice_iter_init_errors :
    (∀ (ε : Type) (items : List (TryInit ε)) (base n : Nat),
      items.length < n →
      (∀ j (hj : j < items.length),
        items.get ⟨j, hj⟩ (base + j) = .ok (base + j)) →
      SliceIterInit.try_init items base n =
        .val (.error .NotEnoughItems)) ∧
    (∀ (ε : Type) (items : List (TryInit ε)) (base n : Nat) (j : Nat)
      (hj : j < items.length) (e : ε),
      j < n →
      (∀ l (hl : l < j),
        items.get ⟨l, Nat.lt_trans hl hj⟩ (base + l) = .ok (base + l)) →
      items.get ⟨j, hj⟩ (base + j) = .error e →
      SliceIterInit.try_init items base n = .val (.error (.Init e))) ∧
    (∀ (ε : Type) (items : List (TryInit ε)) (base n : Nat),
      SliceIterInit.try_init items base n =
        .val (.error .NotEnoughItems) →
      items.length < n) := by
  refine ⟨?_, ?_, ?_⟩
  · intro ε items base n hlen hsucc
    exact try_for_each_not_enough items (SliceWriter.new base n) hlen hsucc
  · intro ε items base n j hj e hr hprev herr
    exact try_for_each_init_error items (SliceWriter.new base n) j hj e hr
      hprev herr
  · intro ε items base n h
    exact try_for_each_not_enough_inv items (SliceWriter.new base n) h

theorem c8_slice_iter_init_errors_witness :
    SliceIterInit.try_init ([] : List (TryInit Unit)) 0 1 =
      .val (.error .NotEnoughItems) ∧
    SliceIterInit.try_init [fun _ => (Except.error 42 : Except Nat Nat)] 0 2 =
      .val (.error (.Init 42)) ∧
    ([] : List (TryInit Unit)).length < 1 := by
  have h1 := c8_slice_iter_init_errors.1 Unit [] 0 1 (by decide)
    (fun j hj => absurd hj (by simp))
  have h2 := c8_slice_iter_init_errors.2.1 Nat
    [fun _ => Except.error 42] 0 2 0 (by simp) 42 (by decide)
    (fun l hl => absurd hl (by omega)) rfl
  have h3 := c8_slice_iter_init_errors.2.2 Unit [] 0 1 h1
  exact ⟨h1, h2, h3⟩
